import Mathlib

/-!
Shallow embedding of the Screaming Frog analysis scripts
(`linkgap.js`, `vector.js`, `semantic.js`).

Numbers: the JS scripts compute with IEEE doubles, but every quantity the
claims touch is either a small integer (scores, counts, word counts) or a
ratio compared against a fixed threshold; we model integers with `Nat`/`Int`
and ratios with `ℚ`.  Strings produced only for human display (score
breakdown labels, opportunity messages) are not modelled; the machine-read
fields (`score`, `gapAnalysis`) are modelled in full.
-/

/-! ## CONFIG (linkgap.js lines 6-18) -/

def CONTEXTUAL_LINK_TARGET : Nat := 100

def MIN_CONTEXTUAL_DENSITY : ℚ := 8/10

def MAX_CONTEXTUAL_DENSITY : ℚ := 3

def THIN_CONTENT_THRESHOLD : Nat := 300

def MEDIUM_CONTENT_THRESHOLD : Nat := 800

def MIN_WORDS_FOR_LINKS : Nat := 50

/-! ## Data shapes

`linkAnalysis` object of `analyzeLinksAdvanced` (linkgap.js lines 28-39):
the scorer only reads `contextual`, `uniqueContextual` (a JS `Set`, read
through `.size`), `external`, `template`; we keep those fields. -/

structure LinkData where
  contextual : Nat
  template : Nat
  external : Nat
  nofollow : Nat
  uniqueContextual : Finset String
  deriving DecidableEq

/-- Content metrics object returned by `analyzeContentElement`
(linkgap.js line 279): `{ words, headings, paragraphs, lists, quality }`.
The scorer reads only `words`, so the scorer input carries the counts. -/
structure ContentData where
  words : Nat
  headings : Nat
  paragraphs : Nat
  lists : Nat
  deriving DecidableEq

/-- The `gapAnalysis` object (linkgap.js lines 319-324). -/
structure GapAnalysis where
  hasGap : Bool
  severity : String
  recommendedLinks : Nat
  currentLinks : Nat
  deriving DecidableEq

/-- Result of `calculateContextualOpportunity` (score plus gap analysis;
the `scoreBreakdown` / `opportunities` display strings are not modelled). -/
structure OpportunityResult where
  score : Int
  gapAnalysis : GapAnalysis
  deriving DecidableEq

/-! ## Opportunity scorer (linkgap.js lines 315-436) -/

/-- Line 355: `Math.max(1, Math.floor(contentData.words / CONFIG.CONTEXTUAL_LINK_TARGET))`. -/
def idealLinksFor (words : Nat) : Nat :=
  max 1 (words / CONTEXTUAL_LINK_TARGET)

/-- Line 356: `(linkData.contextual / contentData.words) * 100`. -/
def contextualDensity (linkData : LinkData) (words : Nat) : ℚ :=
  ((linkData.contextual : ℚ) / (words : ℚ)) * 100

/-- Gap severity factor, lines 361-375: returns (points, hasGap, severity). -/
def gapSeverity (contextual idealLinks : Nat) : Int × Bool × String :=
  if contextual = 0 then
    (40, true, "critical")
  else if contextual < idealLinks then
    let deficit : Int := (idealLinks : Int) - (contextual : Int)
    (min 30 (deficit * 8), true, if 3 ≤ deficit then "high" else "medium")
  else
    (0, false, "none")

/-- Low-density bonus, lines 378-383: `+15` when density is below
`MIN_CONTEXTUAL_DENSITY`. -/
def lowDensityPoints (density : ℚ) : Int :=
  if density < MIN_CONTEXTUAL_DENSITY then 15 else 0

/-- Over-linking bonus, lines 386-391: `+20` when density exceeds
`MAX_CONTEXTUAL_DENSITY`. -/
def overLinkPoints (density : ℚ) : Int :=
  if MAX_CONTEXTUAL_DENSITY < density then 20 else 0

/-- The `pageTypeWeights` table, lines 394-401: `(minLinks, weight)`. -/
def pageTypeWeights (pageType : String) : Option (Nat × Int) :=
  if pageType = "homepage" then some (4, 20)
  else if pageType = "trading-pair" then some (3, 15)
  else if pageType = "crypto-specific" then some (4, 15)
  else if pageType = "learn-hub" then some (5, 18)
  else if pageType = "blog-article" then some (3, 12)
  else if pageType = "market-data" then some (2, 10)
  else none

/-- Page-type factor, lines 403-408. -/
def pageTypePoints (pageType : String) (contextual : Nat) : Int :=
  match pageTypeWeights pageType with
  | some (minLinks, weight) => if contextual < minLinks then weight else 0
  | none => 0

/-- Line 411: `linkData.uniqueContextual.size / Math.max(linkData.contextual, 1)`. -/
def uniqueRatio (linkData : LinkData) : ℚ :=
  (linkData.uniqueContextual.card : ℚ) / ((max linkData.contextual 1 : Nat) : ℚ)

/-- Duplicate-link factor, lines 412-420. -/
def duplicatePoints (linkData : LinkData) : Int :=
  if 5 < linkData.contextual ∧ uniqueRatio linkData < 7/10 then 15 else 0

/-- URL-depth factor, lines 423-428. -/
def depthPoints (urlDepth : Int) : Int :=
  if 3 < urlDepth then min 10 ((urlDepth - 3) * 3) else 0

/-- The accumulated `opportunityScore` of the main path (lines 360-428):
the five additive factors in source order. -/
def opportunityPoints (linkData : LinkData) (contentData : ContentData)
    (pageType : String) (urlDepth : Int) : Int :=
  (gapSeverity linkData.contextual (idealLinksFor contentData.words)).1
    + lowDensityPoints (contextualDensity linkData contentData.words)
    + overLinkPoints (contextualDensity linkData contentData.words)
    + pageTypePoints pageType linkData.contextual
    + duplicatePoints linkData
    + depthPoints urlDepth

/-- `calculateContextualOpportunity` (linkgap.js lines 315-436).
The two early exits (lines 327-351) return fixed scores and leave
`recommendedLinks` at its initial value `0`; the main path accumulates the
five factors and clamps with `Math.min(opportunityScore, 100)` (line 431). -/
def calculateContextualOpportunity (linkData : LinkData) (contentData : ContentData)
    (pageType : String) (urlDepth : Int) : OpportunityResult :=
  let gapAnalysis0 : GapAnalysis :=
    { hasGap := false, severity := "none", recommendedLinks := 0,
      currentLinks := linkData.contextual }
  if contentData.words < 10 then
    { score := 90,
      gapAnalysis := { gapAnalysis0 with hasGap := true, severity := "critical" } }
  else if contentData.words < MIN_WORDS_FOR_LINKS then
    { score := 50,
      gapAnalysis := { gapAnalysis0 with hasGap := true, severity := "medium" } }
  else
    let g := gapSeverity linkData.contextual (idealLinksFor contentData.words)
    { score := min (opportunityPoints linkData contentData pageType urlDepth) 100,
      gapAnalysis :=
        { hasGap := g.2.1, severity := g.2.2,
          recommendedLinks := idealLinksFor contentData.words,
          currentLinks := linkData.contextual } }

/-- `jsRound` models JS `Math.round` applied to the exact rational value of
its argument: the nearest integer, ties toward positive infinity
(ECMAScript Math.round; on an exactly-represented argument this is
`⌊x + 1/2⌋` computed in exact arithmetic). -/
def jsRound (q : ℚ) : Int :=
  ⌊q + 1/2⌋

/-- Round to the nearest integer, ties to the even integer — the IEEE-754
significand rounding used by binary64 arithmetic. -/
def roundHalfEven (q : ℚ) : Int :=
  if q - ⌊q⌋ < 1/2 then ⌊q⌋
  else if 1/2 < q - ⌊q⌋ then ⌊q⌋ + 1
  else if 2 ∣ ⌊q⌋ then ⌊q⌋ else ⌊q⌋ + 1

/-- Binary64 (JS Number) rounding of a nonnegative exact value: scale by
the power of two that puts the value in `[2^52, 2^53)`, round the 53-bit
significand to nearest (ties to even), and scale back.  The exponent is
unbounded, so overflow (≥ 2^1024) and subnormals (< 2^-1022) are not
modelled; every value the diversity computation produces lies far inside
the normal range. -/
def fp64 (q : ℚ) : ℚ :=
  if q = 0 then 0
  else (roundHalfEven (q * 2 ^ ((52 : Int) - Int.log 2 q)) : ℚ)
    * 2 ^ (Int.log 2 q - (52 : Int))

/-- `calculateLinkDiversity` (linkgap.js lines 439-444).  The JS expression
`Math.round((linkData.uniqueContextual.size / linkData.contextual) * 100)`
divides and multiplies in binary64: the two counts are exact JS integers
(link counts, far below 2^53), the quotient is the correctly rounded
double `fp64 (u / c)`, the product with the exact constant 100 is again
rounded, and `Math.round` then rounds that double's exact value. -/
def calculateLinkDiversity (linkData : LinkData) : String :=
  if linkData.contextual = 0 then "N/A"
  else
    toString (jsRound (fp64 (fp64 ((linkData.uniqueContextual.card : ℚ)
      / (linkData.contextual : ℚ)) * 100))) ++ "%"

/-- Concrete link data with 40 contextual links and 23 unique targets:
the double product (23/40)*100 is 57.49999999999999289... although the
exact value of 100*23/40 is 57.5, so double rounding and exact rounding
differ at this input. -/
def sampleLinks40 : LinkData :=
  ⟨40, 0, 0, 0, {"a", "b", "c", "d", "e", "f", "g", "h", "i", "j", "k", "l",
    "m", "n", "o", "p", "q", "r", "s", "t", "u", "v", "w"}⟩

/-! ## Content quality classification (linkgap.js lines 219-280)

`analyzeContentElement` mixes DOM cloning/counting with a pure quality
classification of the resulting counts (lines 261-277).  The DOM part is
outside the embedding; the function below takes the already-extracted
counts and reproduces lines 261-279 exactly. -/

structure ContentAnalysis where
  words : Nat
  headings : Nat
  paragraphs : Nat
  lists : Nat
  quality : String
  deriving DecidableEq

def analyzeContentElement (words headings paragraphs lists : Nat) : ContentAnalysis :=
  let quality0 : String :=
    if words < THIN_CONTENT_THRESHOLD then "thin"
    else if words < MEDIUM_CONTENT_THRESHOLD then "medium"
    else "high"
  let quality1 : String :=
    if quality0 = "medium" ∧ 3 ≤ headings ∧ 4 ≤ paragraphs then "high" else quality0
  let quality2 : String :=
    if quality1 = "high" ∧ headings < 2 then "medium" else quality1
  { words := words, headings := headings, paragraphs := paragraphs,
    lists := lists, quality := quality2 }

/-- Rank of a quality label in the THIN < MEDIUM < HIGH ordering. -/
def qualityRank (q : String) : Nat :=
  if q = "thin" then 0 else if q = "medium" then 1 else if q = "high" then 2 else 0

/-! ## Internal-link decision (linkgap.js lines 48-51)

`href.startsWith('/') || href.startsWith('?') ||
 (href.startsWith('http') && href.includes(domain))`.
String primitives are modelled over `List Char`. -/

def listStartsWith : List Char → List Char → Bool
  | _, [] => true
  | [], _ :: _ => false
  | c :: s, d :: pat => c = d && listStartsWith s pat

/-- JS `String.prototype.includes`: `pat` occurs as a contiguous substring. -/
def listContainsSub : List Char → List Char → Bool
  | [], pat => pat.isEmpty
  | c :: s, pat => listStartsWith (c :: s) pat || listContainsSub s pat

def isInternal (href domain : String) : Bool :=
  listStartsWith href.data ['/'] || listStartsWith href.data ['?']
    || (listStartsWith href.data "http".data && listContainsSub href.data domain.data)

/-- Modelled from the spec: "is_internal is true when the href is
root-relative, query-relative, or absolute on the same host" — the host of
an absolute URL is the text between `://` and the next `/`.  `afterSep`
drops everything through the first `://`. -/
def afterSep : List Char → List Char
  | [] => []
  | c :: rest =>
    if listStartsWith (c :: rest) "://".data then rest.drop 2
    else afterSep rest

def urlHost (href : String) : String :=
  String.mk ((afterSep href.data).takeWhile (fun c => c ≠ '/'))

/-- Modelled from the spec: internal = root-relative, query-relative, or an
absolute URL whose host equals the current page's host. -/
def specIsInternal (href domain : String) : Bool :=
  listStartsWith href.data ['/'] || listStartsWith href.data ['?']
    || (listStartsWith href.data "http".data && urlHost href = domain)

/-! ## vector.js: malformed-embedding repair (lines 4-18, 247-277)

The four `String.replace` regex passes of `cleanupMalformedData` are
deterministic on their patterns (every optional/greedy piece is followed by
a literal it cannot overlap), so each is modelled as a direct function on
`List Char`. -/

/-- Consume the character `c` when it is first (regex `c?`). -/
def dropOpt (c : Char) : List Char → List Char
  | [] => []
  | x :: s => if x = c then s else x :: s

/-- Consume the literal `pat`; `none` when `s` does not start with it. -/
def dropLit : List Char → List Char → Option (List Char)
  | [], s => some s
  | _ :: _, [] => none
  | c :: pat, x :: s => if x = c then dropLit pat s else none

def embLit : List Char := "\"embedding\":".data

/-- One half of the prefix regex: `\[?\{?"embedding":\s*"`. -/
def dropWrapHalf (s : List Char) : Option (List Char) :=
  match dropLit embLit (dropOpt '\x7b' (dropOpt '[' s)) with
  | none => none
  | some r => dropLit ['"'] (r.dropWhile Char.isWhitespace)

/-- First pass (vector.js line 9): strip the doubled
`\[?\{?"embedding":\s*"\[?\{?"embedding":\s*"` prefix when present
(the `^` anchor limits the global regex to a single match at position 0). -/
def stripWrap (s : List Char) : List Char :=
  match dropWrapHalf s >>= dropWrapHalf with
  | some r => r
  | none => s

def methodLit : List Char := "\"method\"".data

/-- Match `",?"method"` at the head, returning the rest after the literal
(the greedy `,?` is tried with the comma first, then without). -/
def methodAt (s : List Char) : Option (List Char) :=
  match s with
  | [] => none
  | a :: rest =>
    if a = '"' then
      match rest with
      | b :: rest2 =>
        if b = ',' then
          match dropLit methodLit rest2 with
          | some r => some r
          | none => dropLit methodLit rest
        else dropLit methodLit rest
      | [] => dropLit methodLit rest
    else none

/-- Whether `",?"method".*$` matches at the head of `s`: the head pattern
matches and `.*$` can reach the end (no newline in the remainder). -/
def methodHere (s : List Char) : Bool :=
  match methodAt s with
  | some r => !(r.contains '\n')
  | none => false

/-- Second pass (vector.js line 10): delete from the leftmost match of
`",?"method".*$` to the end of the string. -/
def stripMethod : List Char → List Char
  | [] => []
  | c :: s => if methodHere (c :: s) then [] else c :: stripMethod s

/-- Delete the last character when it is `c` (regex `\]$` / `"$`). -/
def dropLastIf (c : Char) (s : List Char) : List Char :=
  match s.getLast? with
  | some x => if x = c then s.dropLast else s
  | none => s

/-- Third pass (vector.js line 11): `^\[|\]$`. -/
def stripBrackets (s : List Char) : List Char :=
  dropLastIf ']' (dropOpt '[' s)

/-- Fourth pass (vector.js line 12): `^"|"$`. -/
def stripQuotes (s : List Char) : List Char :=
  dropLastIf '"' (dropOpt '"' s)

/-- `String.prototype.trim`. -/
def trimChars (s : List Char) : List Char :=
  ((s.dropWhile Char.isWhitespace).reverse.dropWhile Char.isWhitespace).reverse

/-- `cleanupMalformedData` (vector.js lines 4-18) on the string case. -/
def cleanupMalformedData (s : String) : String :=
  String.mk (trimChars (stripQuotes (stripBrackets (stripMethod (stripWrap s.data)))))

/-! Validation grammar (vector.js line 259):
`/^-?\d+(\.\d+)?(,-?\d+(\.\d+)?)*$/`. -/

/-- Consume `\d+` (one or more digits, maximal munch). -/
def eatDigits (s : List Char) : Option (List Char) :=
  match s with
  | c :: r => if c.isDigit then some (r.dropWhile Char.isDigit) else none
  | [] => none

/-- Consume `-?\d+(\.\d+)?`. -/
def eatNum (s : List Char) : Option (List Char) :=
  match eatDigits (dropOpt '-' s) with
  | none => none
  | some [] => some []
  | some (a :: r) => if a = '.' then eatDigits r else some (a :: r)

/-- Consume `(,-?\d+(\.\d+)?)*$`; the fuel only bounds the iteration count
and `grammarCheck` supplies `s.length`, more than the possible matches
(each iteration consumes at least two characters). -/
def numListAux : Nat → List Char → Bool
  | _, [] => true
  | 0, _ :: _ => false
  | fuel + 1, a :: r =>
    if a = ',' then
      match eatNum r with
      | some r2 => numListAux fuel r2
      | none => false
    else false

def grammarCheck (s : List Char) : Bool :=
  match eatNum s with
  | some r => numListAux s.length r
  | none => false

/-- The `'\x7b"embedding":'` marker tested by
`embeddingValue.includes('\x7b"embedding":')` (vector.js line 251). -/
def embWrapper : List Char := "\x7b\"embedding\":".data

/-- `cleanupExistingData` (vector.js lines 247-277) on the string case:
strings containing the wrapper marker are cleaned and validated (`null`
when validation fails, modelled as `none`); other strings are returned
as-is.  The JS truthiness test `if (cleanValue && ...)` rejects the empty
string. -/
def cleanupExistingData (s : String) : Option String :=
  if listContainsSub s.data embWrapper then
    let cleanValue := cleanupMalformedData s
    if cleanValue.data ≠ [] ∧ grammarCheck cleanValue.data = true then some cleanValue
    else none
  else some s

/-- Characters a string accepted by `grammarCheck` may contain. -/
def numChar (c : Char) : Prop :=
  c.isDigit = true ∨ c = '-' ∨ c = '.' ∨ c = ','

/-- The malformed sample from the spec:
`'[{"embedding":"[{"embedding":"0.1,0.2,0.3","method":"x"}'`. -/
def malformedSample : String :=
  "[\x7b\"embedding\":\"[\x7b\"embedding\":\"0.1,0.2,0.3\",\"method\":\"x\"\x7d"

/-! ## Factor range lemmas -/

lemma gapSeverity_fst_range (c i : Nat) :
    0 ≤ (gapSeverity c i).1 ∧ (gapSeverity c i).1 ≤ 40 := by
  unfold gapSeverity
  split_ifs with h1 h2
  · norm_num
  · simp only []
    omega
  · norm_num

lemma lowDensityPoints_range (q : ℚ) :
    0 ≤ lowDensityPoints q ∧ lowDensityPoints q ≤ 15 := by
  unfold lowDensityPoints; split_ifs <;> norm_num

lemma overLinkPoints_range (q : ℚ) :
    0 ≤ overLinkPoints q ∧ overLinkPoints q ≤ 20 := by
  unfold overLinkPoints; split_ifs <;> norm_num

lemma pageTypePoints_range (pt : String) (c : Nat) :
    0 ≤ pageTypePoints pt c ∧ pageTypePoints pt c ≤ 20 := by
  unfold pageTypePoints pageTypeWeights
  split_ifs
  all_goals simp only []
  all_goals first
    | (split_ifs <;> norm_num)
    | norm_num

lemma duplicatePoints_range (ld : LinkData) :
    0 ≤ duplicatePoints ld ∧ duplicatePoints ld ≤ 15 := by
  unfold duplicatePoints; split_ifs <;> norm_num

lemma depthPoints_range (d : Int) :
    0 ≤ depthPoints d ∧ depthPoints d ≤ 10 := by
  unfold depthPoints; split_ifs with h <;> omega

/-- C1: for every link set, content data, page category and URL depth, the
opportunity score returned by `calculateContextualOpportunity` is an
integer between 0 and 100 inclusive. -/
theorem C1_score_between_0_and_100 (linkData : LinkData) (contentData : ContentData)
    (pageType : String) (urlDepth : Int) :
    0 ≤ (calculateContextualOpportunity linkData contentData pageType urlDepth).score ∧
      (calculateContextualOpportunity linkData contentData pageType urlDepth).score ≤ 100 := by
  unfold calculateContextualOpportunity
  split_ifs <;> simp
  have hg := gapSeverity_fst_range linkData.contextual (idealLinksFor contentData.words)
  have hl := lowDensityPoints_range (contextualDensity linkData contentData.words)
  have ho := overLinkPoints_range (contextualDensity linkData contentData.words)
  have hp := pageTypePoints_range pageType linkData.contextual
  have hd := duplicatePoints_range linkData
  have hu := depthPoints_range urlDepth
  unfold opportunityPoints
  omega

/-- C2: for every input whose content word count is below 10,
`calculateContextualOpportunity` returns exactly score 90 with severity
"critical", independently of all link data, category and depth (the
quantified `linkData`, `pageType`, `urlDepth` never influence the result). -/
theorem C2_broken_page_fixed_result (linkData : LinkData) (contentData : ContentData)
    (pageType : String) (urlDepth : Int) (h : contentData.words < 10) :
    (calculateContextualOpportunity linkData contentData pageType urlDepth).score = 90 ∧
      (calculateContextualOpportunity linkData contentData pageType urlDepth).gapAnalysis.severity
        = "critical" := by
  unfold calculateContextualOpportunity
  rw [if_pos h]
  exact ⟨rfl, rfl⟩

theorem C2_witness :
    (calculateContextualOpportunity ⟨7, 2, 3, 1, {"x"}⟩ ⟨5, 1, 1, 0⟩ "homepage" 6).score = 90 ∧
      (calculateContextualOpportunity ⟨7, 2, 3, 1, {"x"}⟩ ⟨5, 1, 1, 0⟩ "homepage" 6).gapAnalysis.severity
        = "critical" :=
  C2_broken_page_fixed_result _ _ _ _ (by decide)

/-- C4 counterexample: at the broken-page early exit (5 words) the returned
`recommendedLinks` is 0, so it is not an integer greater than or equal
to 1 as the claim states. -/
theorem C4_counterexample :
    ¬ 1 ≤ (calculateContextualOpportunity ⟨0, 0, 0, 0, ∅⟩ ⟨5, 0, 0, 0⟩ "other"
      0).gapAnalysis.recommendedLinks := by
  decide

/-- C4 amended: on the main scoring path — content word count at least
`MIN_WORDS_FOR_LINKS` (50) — the returned `recommendedLinks` is at least 1;
the two early exits instead leave it at its initial value 0. -/
theorem C4_amended_recommended_links_pos (linkData : LinkData) (contentData : ContentData)
    (pageType : String) (urlDepth : Int) (h : MIN_WORDS_FOR_LINKS ≤ contentData.words) :
    1 ≤ (calculateContextualOpportunity linkData contentData pageType
      urlDepth).gapAnalysis.recommendedLinks := by
  unfold calculateContextualOpportunity
  rw [if_neg (by unfold MIN_WORDS_FOR_LINKS at h; omega), if_neg (by omega)]
  show 1 ≤ idealLinksFor contentData.words
  exact Nat.le_max_left 1 _

theorem C4_witness :
    1 ≤ (calculateContextualOpportunity ⟨0, 0, 0, 0, ∅⟩ ⟨400, 2, 3, 0⟩ "blog-article"
      0).gapAnalysis.recommendedLinks :=
  C4_amended_recommended_links_pos _ _ _ _ (by decide)

/-- C3 counterexample: there is no input at all for which both the
low-density bonus (+15) and the high-density bonus (+20) are added in the
same score computation — the two density conditions are mutually
exclusive on the density value the scorer computes. -/
theorem C3_counterexample :
    ¬ ∃ (linkData : LinkData) (contentData : ContentData),
      lowDensityPoints (contextualDensity linkData contentData.words) ≠ 0 ∧
        overLinkPoints (contextualDensity linkData contentData.words) ≠ 0 := by
  rintro ⟨ld, cd, h1, h2⟩
  unfold lowDensityPoints at h1
  unfold overLinkPoints at h2
  split_ifs at h1 h2 with ha hb
  · unfold MIN_CONTEXTUAL_DENSITY at ha
    unfold MAX_CONTEXTUAL_DENSITY at hb
    linarith
  all_goals simp_all

/-- C3 amended: in every score computation at most one of the two density
bonuses is nonzero (the claimed simultaneous firing is impossible). -/
theorem C3_amended_bonuses_exclusive (linkData : LinkData) (contentData : ContentData) :
    lowDensityPoints (contextualDensity linkData contentData.words) = 0 ∨
      overLinkPoints (contextualDensity linkData contentData.words) = 0 := by
  unfold lowDensityPoints overLinkPoints MIN_CONTEXTUAL_DENSITY MAX_CONTEXTUAL_DENSITY
  split_ifs with ha hb
  · exfalso; linarith
  · right; rfl
  · left; rfl
  · left; rfl

/-- Closed form of the quality label of `analyzeContentElement`. -/
lemma analyzeContentElement_quality_eq (words headings paragraphs lists : Nat) :
    (analyzeContentElement words headings paragraphs lists).quality =
      if words < 300 then "thin"
      else if words < 800 then (if 3 ≤ headings ∧ 4 ≤ paragraphs then "high" else "medium")
      else (if headings < 2 then "medium" else "high") := by
  unfold analyzeContentElement THIN_CONTENT_THRESHOLD MEDIUM_CONTENT_THRESHOLD
  split_ifs <;> first
    | rfl
    | (simp_all; all_goals omega)

/-- C8: for all word counts w1 < w2 analyzed with identical structure
signals, the quality label after the promotion and demotion rules is
monotone in the THIN < MEDIUM < HIGH ordering. -/
theorem C8_quality_monotone (w1 w2 headings paragraphs lists : Nat) (h : w1 < w2) :
    qualityRank (analyzeContentElement w1 headings paragraphs lists).quality ≤
      qualityRank (analyzeContentElement w2 headings paragraphs lists).quality := by
  rw [analyzeContentElement_quality_eq, analyzeContentElement_quality_eq]
  split_ifs <;> first | omega | decide

theorem C8_witness :
    qualityRank (analyzeContentElement 100 2 2 0).quality ≤
      qualityRank (analyzeContentElement 900 2 2 0).quality :=
  C8_quality_monotone 100 900 2 2 0 (by decide)

lemma listStartsWith_nil (s : List Char) : listStartsWith s [] = true := by
  cases s <;> rfl

lemma listStartsWith_append (pat t : List Char) :
    listStartsWith (pat ++ t) pat = true := by
  induction pat with
  | nil => exact listStartsWith_nil t
  | cons c pat ih => simp [listStartsWith, ih]

lemma listContainsSub_of_startsWith {s pat : List Char}
    (h : listStartsWith s pat = true) : listContainsSub s pat = true := by
  cases s with
  | nil =>
    cases pat with
    | nil => rfl
    | cons c pat => simp [listStartsWith] at h
  | cons c s => simp [listContainsSub, h]

lemma listContainsSub_append_left (pre s pat : List Char)
    (h : listContainsSub s pat = true) : listContainsSub (pre ++ s) pat = true := by
  induction pre with
  | nil => simpa using h
  | cons c pre ih =>
    simp only [List.cons_append, listContainsSub, Bool.or_eq_true]
    exact Or.inr ih

lemma afterSep_suffix (s : List Char) : ∃ t, t ++ afterSep s = s := by
  induction s with
  | nil => exact ⟨[], rfl⟩
  | cons c rest ih =>
    unfold afterSep
    split_ifs with h
    · exact ⟨c :: rest.take 2, by simp⟩
    · obtain ⟨t, ht⟩ := ih
      exact ⟨c :: t, by simp [ht]⟩

/-- The host extracted from a URL occurs in the URL as a substring. -/
lemma host_substring (href : String) :
    listContainsSub href.data (urlHost href).data = true := by
  obtain ⟨t, ht⟩ := afterSep_suffix href.data
  have h1 : listStartsWith (afterSep href.data) (urlHost href).data = true := by
    have h2 := listStartsWith_append
      ((afterSep href.data).takeWhile (fun c => c ≠ '/'))
      ((afterSep href.data).dropWhile (fun c => c ≠ '/'))
    rwa [List.takeWhile_append_dropWhile] at h2
  rw [← ht]
  exact listContainsSub_append_left t _ _ (listContainsSub_of_startsWith h1)

/-- C9 amended: every href that is root-relative, query-relative, or an
absolute URL whose host equals the current page host is classified
internal; the converse fails (see the counterexample) because the code
tests substring containment of the host anywhere in the href, not host
equality. -/
theorem C9_amended_spec_subset_code (href domain : String)
    (h : specIsInternal href domain = true) : isInternal href domain = true := by
  unfold specIsInternal at h
  unfold isInternal
  simp only [Bool.or_eq_true, Bool.and_eq_true, decide_eq_true_eq] at h ⊢
  rcases h with (h | h) | ⟨h1, h2⟩
  · exact Or.inl (Or.inl h)
  · exact Or.inl (Or.inr h)
  · refine Or.inr ⟨h1, ?_⟩
    rw [← h2]
    exact host_substring href

theorem C9_counterexample :
    isInternal "http://evil.com/example.com" "example.com" = true ∧
      specIsInternal "http://evil.com/example.com" "example.com" = false := by
  constructor <;> decide

theorem C9_witness : isInternal "/trade/BTC-INR" "example.com" = true :=
  C9_amended_spec_subset_code _ _ (by decide)

/-! ## Character-set lemmas for the validation grammar -/

lemma mem_dropOpt_or {x c : Char} {s : List Char} (hc : c ∈ s) :
    c ∈ dropOpt x s ∨ c = x := by
  cases s with
  | nil => cases hc
  | cons a s' =>
    simp only [dropOpt]
    split_ifs with h
    · rcases List.mem_cons.mp hc with rfl | hmem
      · exact Or.inr h
      · exact Or.inl hmem
    · exact Or.inl hc

lemma eatDigits_chars {s r : List Char} (h : eatDigits s = some r) :
    ∀ c ∈ s, c ∈ r ∨ c.isDigit = true := by
  cases s with
  | nil => cases h
  | cons a s' =>
    simp only [eatDigits] at h
    split_ifs at h with ha
    · intro c hc
      cases h
      rcases List.mem_cons.mp hc with rfl | hmem
      · exact Or.inr ha
      · rw [← List.takeWhile_append_dropWhile (p := Char.isDigit) (l := s')] at hmem
        rcases List.mem_append.mp hmem with hm | hm
        · exact Or.inr (List.mem_takeWhile_imp hm)
        · exact Or.inl hm

lemma eatNum_chars {s r : List Char} (h : eatNum s = some r) :
    ∀ c ∈ s, c ∈ r ∨ numChar c := by
  unfold eatNum at h
  intro c hc
  cases heq : eatDigits (dropOpt '-' s) with
  | none => rw [heq] at h; cases h
  | some r1 =>
    rw [heq] at h
    have hstep : c ∈ dropOpt '-' s ∨ c = '-' := mem_dropOpt_or hc
    rcases hstep with hmem | rfl
    · have h1 := eatDigits_chars heq c hmem
      rcases h1 with h1 | h1
      · cases r1 with
        | nil =>
          cases h1
        | cons a r2 =>
          simp only [] at h
          split_ifs at h with hdot
          · rcases List.mem_cons.mp h1 with rfl | h2
            · exact Or.inr (Or.inr (Or.inr (Or.inl hdot)))
            · rcases eatDigits_chars h c h2 with h3 | h3
              · exact Or.inl h3
              · exact Or.inr (Or.inl h3)
          · cases h
            exact Or.inl h1
      · exact Or.inr (Or.inl h1)
    · exact Or.inr (Or.inr (Or.inl rfl))

lemma numListAux_chars (fuel : Nat) :
    ∀ s : List Char, numListAux fuel s = true → ∀ c ∈ s, numChar c := by
  induction fuel with
  | zero =>
    intro s h c hc
    cases s with
    | nil => cases hc
    | cons a s' => exact absurd h (by simp [numListAux])
  | succ fuel ih =>
    intro s h c hc
    cases s with
    | nil => cases hc
    | cons a r =>
      unfold numListAux at h
      split_ifs at h with ha
      · cases heq : eatNum r with
        | none => rw [heq] at h; cases h
        | some r2 =>
          rw [heq] at h
          rcases List.mem_cons.mp hc with rfl | hmem
          · exact Or.inr (Or.inr (Or.inr ha))
          · rcases eatNum_chars heq c hmem with h1 | h1
            · exact ih r2 h c h1
            · exact h1

lemma grammar_chars {s : List Char} (h : grammarCheck s = true) :
    ∀ c ∈ s, numChar c := by
  unfold grammarCheck at h
  intro c hc
  cases heq : eatNum s with
  | none => rw [heq] at h; cases h
  | some r =>
    rw [heq] at h
    rcases eatNum_chars heq c hc with h1 | h1
    · exact numListAux_chars _ _ h c h1
    · exact h1

/-- A grammar character is none of the structural characters the cleanup
passes look for. -/
lemma numChar_props {c : Char} (h : numChar c) :
    c ≠ '[' ∧ c ≠ '\x7b' ∧ c ≠ '"' ∧ c ≠ ']' ∧ c.isWhitespace = false := by
  rcases h with hd | rfl | rfl | rfl
  · refine ⟨?_, ?_, ?_, ?_, ?_⟩
    · rintro rfl; simp at hd
    · rintro rfl; simp at hd
    · rintro rfl; simp at hd
    · rintro rfl; simp at hd
    · cases hw : c.isWhitespace
      · rfl
      · exfalso
        simp [Char.isWhitespace] at hw
        rcases hw with ((rfl | rfl) | rfl) | rfl <;> simp at hd
  · decide
  · decide
  · decide

/-! ## The cleanup passes do not touch a grammar-clean string -/

lemma dropOpt_eq_self {x : Char} {s : List Char} (h : ∀ c ∈ s, c ≠ x) :
    dropOpt x s = s := by
  cases s with
  | nil => rfl
  | cons a s' =>
    simp only [dropOpt]
    rw [if_neg (h a (List.mem_cons_self a s'))]

lemma dropLastIf_eq_self {x : Char} {s : List Char} (h : ∀ c ∈ s, c ≠ x) :
    dropLastIf x s = s := by
  unfold dropLastIf
  cases hl : s.getLast? with
  | none => rfl
  | some y =>
    have hy : y ∈ s := by
      obtain ⟨hne, heq⟩ := List.mem_getLast?_eq_getLast (Option.mem_def.mpr hl)
      rw [heq]
      exact List.getLast_mem hne
    simp only []
    rw [if_neg (h y hy)]

lemma dropWhile_eq_self {p : Char → Bool} {s : List Char}
    (h : ∀ c ∈ s, p c = false) : s.dropWhile p = s := by
  cases s with
  | nil => rfl
  | cons a s' =>
    rw [List.dropWhile_cons, h a (List.mem_cons_self a s')]
    simp

lemma trimChars_eq_self {s : List Char} (h : ∀ c ∈ s, c.isWhitespace = false) :
    trimChars s = s := by
  unfold trimChars
  rw [dropWhile_eq_self h, dropWhile_eq_self (fun c hc => h c (List.mem_reverse.mp hc)),
    List.reverse_reverse]

lemma dropLit_embLit_none {s : List Char} (h : ∀ c ∈ s, c ≠ '"') :
    dropLit embLit s = none := by
  have he : embLit = '"' :: "embedding\":".data := rfl
  cases s with
  | nil => rfl
  | cons a s' =>
    rw [he]
    simp only [dropLit]
    rw [if_neg (h a (List.mem_cons_self a s'))]

lemma dropWrapHalf_none {s : List Char} (h : ∀ c ∈ s, numChar c) :
    dropWrapHalf s = none := by
  unfold dropWrapHalf
  rw [dropOpt_eq_self (fun c hc => (numChar_props (h c hc)).1),
    dropOpt_eq_self (fun c hc => (numChar_props (h c hc)).2.1),
    dropLit_embLit_none (fun c hc => (numChar_props (h c hc)).2.2.1)]

lemma stripWrap_eq_self {s : List Char} (h : ∀ c ∈ s, numChar c) :
    stripWrap s = s := by
  unfold stripWrap
  rw [dropWrapHalf_none h]
  rfl

lemma stripMethod_eq_self {s : List Char} (h : ∀ c ∈ s, c ≠ '"') :
    stripMethod s = s := by
  induction s with
  | nil => rfl
  | cons a s' ih =>
    have hA : methodAt (a :: s') = none := by
      unfold methodAt
      exact if_neg (h a (List.mem_cons_self a s'))
    have hm : methodHere (a :: s') = false := by
      unfold methodHere
      rw [hA]
    unfold stripMethod
    rw [hm]
    simp only [Bool.false_eq_true, if_false]
    rw [ih (fun c hc => h c (List.mem_cons_of_mem a hc))]

lemma stripBrackets_eq_self {s : List Char} (h : ∀ c ∈ s, numChar c) :
    stripBrackets s = s := by
  unfold stripBrackets
  rw [dropOpt_eq_self (fun c hc => (numChar_props (h c hc)).1),
    dropLastIf_eq_self (fun c hc => (numChar_props (h c hc)).2.2.2.1)]

lemma stripQuotes_eq_self {s : List Char} (h : ∀ c ∈ s, numChar c) :
    stripQuotes s = s := by
  unfold stripQuotes
  rw [dropOpt_eq_self (fun c hc => (numChar_props (h c hc)).2.2.1),
    dropLastIf_eq_self (fun c hc => (numChar_props (h c hc)).2.2.1)]

/-- C5: on a string matching the strict comma-separated signed-decimal
grammar (and containing no wrapper marker) both repair functions return
the input unchanged, and on the spec's malformed sample they yield exactly
"0.1,0.2,0.3". -/
theorem C5_repair_clean_unchanged_and_sample :
    (∀ S : String, grammarCheck S.data = true →
      listContainsSub S.data embWrapper = false →
      cleanupMalformedData S = S ∧ cleanupExistingData S = some S) ∧
      (cleanupMalformedData malformedSample = "0.1,0.2,0.3" ∧
        cleanupExistingData malformedSample = some "0.1,0.2,0.3") := by
  refine ⟨fun S h1 h2 => ⟨?_, ?_⟩, by decide, by decide⟩
  · have hch := grammar_chars h1
    unfold cleanupMalformedData
    rw [stripWrap_eq_self hch,
      stripMethod_eq_self (fun c hc => (numChar_props (hch c hc)).2.2.1),
      stripBrackets_eq_self hch, stripQuotes_eq_self hch,
      trimChars_eq_self (fun c hc => (numChar_props (hch c hc)).2.2.2.2)]
  · unfold cleanupExistingData
    rw [h2]
    simp

theorem C5_witness :
    cleanupMalformedData "0.1,0.2,0.3" = "0.1,0.2,0.3" ∧
      cleanupExistingData "0.1,0.2,0.3" = some "0.1,0.2,0.3" :=
  C5_repair_clean_unchanged_and_sample.1 "0.1,0.2,0.3" (by decide) (by decide)

/-- C6 counterexample: a string with no wrapper marker is returned as-is
even when it fails the grammar. -/
theorem C6_counterexample :
    cleanupExistingData "hello" = some "hello" ∧
      grammarCheck "hello".data ≠ true := by
  constructor
  · decide
  · decide

/-- C6 amended: for every string input that contains the
`'\x7b"embedding":'` wrapper marker, `cleanupExistingData` returns either
`none` (regenerate) or a string that passes the strict grammar check;
strings without the marker are returned as-is without validation (see the
counterexample). -/
theorem C6_amended_wrapper_path_validates (s v : String)
    (h1 : listContainsSub s.data embWrapper = true)
    (h2 : cleanupExistingData s = some v) :
    grammarCheck v.data = true := by
  unfold cleanupExistingData at h2
  rw [h1] at h2
  simp only [if_true] at h2
  split_ifs at h2 with h3
  cases h2
  exact h3.2

theorem C6_witness : grammarCheck ("0.1,0.2,0.3" : String).data = true :=
  C6_amended_wrapper_path_validates malformedSample "0.1,0.2,0.3" (by decide) (by decide)

/-! ## Binary64 rounding error bounds -/

lemma roundHalfEven_err (q : ℚ) : |(roundHalfEven q : ℚ) - q| ≤ 1/2 := by
  have h1 : ((⌊q⌋ : Int) : ℚ) ≤ q := Int.floor_le q
  have h2 : q < ⌊q⌋ + 1 := Int.lt_floor_add_one q
  unfold roundHalfEven
  split_ifs with ha hb hc
  · rw [abs_le]
    constructor <;> linarith
  · rw [abs_le]
    constructor <;> push_cast <;> linarith
  · rw [abs_le]
    constructor <;> linarith
  · rw [abs_le]
    constructor <;> push_cast <;> linarith

lemma fp64_error {x : ℚ} (hx : 0 < x) : |fp64 x - x| ≤ x / 9007199254740992 := by
  unfold fp64
  rw [if_neg (ne_of_gt hx)]
  set e := Int.log 2 x with he
  have hss : (0:ℚ) < 2 ^ (e - (52 : Int)) := by positivity
  have hy : x * 2 ^ ((52 : Int) - e) * 2 ^ (e - (52 : Int)) = x := by
    rw [mul_assoc, ← zpow_add₀ (two_ne_zero)]
    norm_num
  have key : (roundHalfEven (x * 2 ^ ((52 : Int) - e)) : ℚ) * 2 ^ (e - (52 : Int)) - x
      = ((roundHalfEven (x * 2 ^ ((52 : Int) - e)) : ℚ) - x * 2 ^ ((52 : Int) - e))
        * 2 ^ (e - (52 : Int)) := by
    rw [sub_mul, hy]
  rw [key, abs_mul, abs_of_pos hss]
  have hr := roundHalfEven_err (x * 2 ^ ((52 : Int) - e))
  have h1 : (2:ℚ) ^ e ≤ x := by
    have h1a := Int.zpow_log_le_self (b := 2) (R := ℚ) one_lt_two hx
    norm_num at h1a
    rw [← he] at h1a
    exact h1a
  have h2 : (2:ℚ) ^ (e - (52 : Int)) * (1/2) = 2 ^ e / 9007199254740992 := by
    rw [zpow_sub₀ (two_ne_zero)]
    norm_num
    ring
  calc |(roundHalfEven (x * 2 ^ ((52 : Int) - e)) : ℚ) - x * 2 ^ ((52 : Int) - e)|
        * 2 ^ (e - (52 : Int))
      ≤ (1/2) * 2 ^ (e - (52 : Int)) := mul_le_mul_of_nonneg_right hr (le_of_lt hss)
    _ = 2 ^ (e - (52 : Int)) * (1/2) := by ring
    _ = 2 ^ e / 9007199254740992 := h2
    _ ≤ x / 9007199254740992 := by linarith

lemma jsRound_close {a b : ℚ} (h : |a - b| ≤ 1/2) :
    |jsRound a - jsRound b| ≤ 1 := by
  unfold jsRound
  rw [abs_le] at h
  have f1 : ⌊a + 1/2⌋ ≤ ⌊b + 1/2⌋ + 1 := by
    have hle : a + 1/2 ≤ (b + 1/2) + ((1 : Int) : ℚ) := by push_cast; linarith
    have := Int.floor_mono hle
    rwa [Int.floor_add_int] at this
  have f2 : ⌊b + 1/2⌋ ≤ ⌊a + 1/2⌋ + 1 := by
    have hle : b + 1/2 ≤ (a + 1/2) + ((1 : Int) : ℚ) := by push_cast; linarith
    have := Int.floor_mono hle
    rwa [Int.floor_add_int] at this
  rw [abs_le]
  omega

/-- C10 amended: `calculateLinkDiversity` never divides by zero — with zero
contextual links it returns "N/A", and with a positive contextual count
(and unique targets at most the contextual count, the LinkSet invariant)
it returns a percentage string `toString r ++ "%"` whose integer `r` is
Math.round of the binary64 product `(unique/contextual)*100` and differs
from the exact `round(100*unique/contextual)` by at most 1. -/
theorem C10_amended_diversity_within_one (linkData : LinkData) :
    (linkData.contextual = 0 → calculateLinkDiversity linkData = "N/A") ∧
      (linkData.contextual ≠ 0 →
        linkData.uniqueContextual.card ≤ linkData.contextual →
        ∃ r : Int, calculateLinkDiversity linkData = toString r ++ "%" ∧
          |r - jsRound ((100 * (linkData.uniqueContextual.card : ℚ)) /
            (linkData.contextual : ℚ))| ≤ 1) := by
  constructor
  · intro h
    unfold calculateLinkDiversity
    rw [if_pos h]
  · intro h0 hu
    refine ⟨jsRound (fp64 (fp64 ((linkData.uniqueContextual.card : ℚ) /
      (linkData.contextual : ℚ)) * 100)), ?_, ?_⟩
    · unfold calculateLinkDiversity
      rw [if_neg h0]
    · have hq : (100 * (linkData.uniqueContextual.card : ℚ)) / (linkData.contextual : ℚ)
          = ((linkData.uniqueContextual.card : ℚ) / (linkData.contextual : ℚ)) * 100 := by
        ring
      rw [hq]
      apply jsRound_close
      rcases Nat.eq_zero_or_pos linkData.uniqueContextual.card with hu0 | hup
      · rw [hu0]
        norm_num [fp64]
      · have hc : 0 < linkData.contextual := Nat.pos_of_ne_zero h0
        have hx1 : 0 < (linkData.uniqueContextual.card : ℚ) / (linkData.contextual : ℚ) := by
          apply div_pos
          · exact_mod_cast hup
          · exact_mod_cast hc
        have hx1le : (linkData.uniqueContextual.card : ℚ) / (linkData.contextual : ℚ) ≤ 1 := by
          rw [div_le_one (by exact_mod_cast hc)]
          exact_mod_cast hu
        have e1 := abs_le.mp (fp64_error hx1)
        have hd1 : 0 < fp64 ((linkData.uniqueContextual.card : ℚ) /
            (linkData.contextual : ℚ)) := by
          obtain ⟨e1l, e1r⟩ := e1
          linarith
        have hx2 : 0 < fp64 ((linkData.uniqueContextual.card : ℚ) /
            (linkData.contextual : ℚ)) * 100 := by linarith
        have e2 := abs_le.mp (fp64_error hx2)
        obtain ⟨e1l, e1r⟩ := e1
        obtain ⟨e2l, e2r⟩ := e2
        rw [abs_le]
        constructor <;> linarith

/-! ## Concrete binary64 evaluations at 23/40 -/

lemma fp64_at_23_40 : fp64 ((23:ℚ)/40) = 2589569785738035/4503599627370496 := by
  have hr : (0:ℚ) < 23/40 := by norm_num
  have hlog : Int.log 2 ((23:ℚ)/40) = -1 := by
    have ha : -1 ≤ Int.log 2 ((23:ℚ)/40) := by
      rw [← Int.zpow_le_iff_le_log one_lt_two hr]
      norm_num
    have hb : Int.log 2 ((23:ℚ)/40) < 0 := by
      rw [← Int.lt_zpow_iff_log_lt one_lt_two hr]
      norm_num
    omega
  unfold fp64
  rw [if_neg (by norm_num), hlog]
  have harg : (23:ℚ)/40 * 2 ^ ((52 : Int) - (-1)) = 25895697857380352/5 := by norm_num
  rw [harg]
  have hfl : ⌊(25895697857380352:ℚ)/5⌋ = 5179139571476070 := by
    rw [Int.floor_eq_iff]
    norm_num
  have hrhe : roundHalfEven ((25895697857380352:ℚ)/5) = 5179139571476070 := by
    unfold roundHalfEven
    rw [hfl, if_pos (by push_cast; norm_num)]
  rw [hrhe]
  norm_num

lemma fp64_at_product :
    fp64 ((2589569785738035:ℚ)/4503599627370496 * 100) = 8092405580431359/140737488355328 := by
  have hx : (2589569785738035:ℚ)/4503599627370496 * 100 = 64739244643450875/1125899906842624 := by
    norm_num
  rw [hx]
  have hr : (0:ℚ) < 64739244643450875/1125899906842624 := by norm_num
  have hlog : Int.log 2 ((64739244643450875:ℚ)/1125899906842624) = 5 := by
    have ha : 5 ≤ Int.log 2 ((64739244643450875:ℚ)/1125899906842624) := by
      rw [← Int.zpow_le_iff_le_log one_lt_two hr]
      norm_num
    have hb : Int.log 2 ((64739244643450875:ℚ)/1125899906842624) < 6 := by
      rw [← Int.lt_zpow_iff_log_lt one_lt_two hr]
      norm_num
    omega
  unfold fp64
  rw [if_neg (by norm_num), hlog]
  have harg : (64739244643450875:ℚ)/1125899906842624 * 2 ^ ((52 : Int) - 5)
      = 64739244643450875/8 := by norm_num
  rw [harg]
  have hfl : ⌊(64739244643450875:ℚ)/8⌋ = 8092405580431359 := by
    rw [Int.floor_eq_iff]
    norm_num
  have hrhe : roundHalfEven ((64739244643450875:ℚ)/8) = 8092405580431359 := by
    unfold roundHalfEven
    rw [hfl, if_pos (by push_cast; norm_num)]
  rw [hrhe]
  norm_num

/-- C10 counterexample: at 40 contextual links with 23 unique targets the
program rounds the binary64 product 57.49999999999999289... down to 57 and
reports "57%", while the claim's exact formula round(100*23/40) =
round(57.5) gives 58 — so the claim fails at this input. -/
theorem C10_counterexample :
    calculateLinkDiversity sampleLinks40 = "57%" ∧
      toString (jsRound ((100 * (sampleLinks40.uniqueContextual.card : ℚ)) /
        (sampleLinks40.contextual : ℚ))) ++ "%" = "58%" ∧
      calculateLinkDiversity sampleLinks40 ≠
        toString (jsRound ((100 * (sampleLinks40.uniqueContextual.card : ℚ)) /
          (sampleLinks40.contextual : ℚ))) ++ "%" := by
  have hcard : ((sampleLinks40.uniqueContextual.card : ℕ) : ℚ) = 23 := by
    rw [show sampleLinks40.uniqueContextual.card = 23 from by decide]
    norm_num
  have hctx : ((sampleLinks40.contextual : ℕ) : ℚ) = 40 := by
    rw [show sampleLinks40.contextual = 40 from rfl]
    norm_num
  have hA : calculateLinkDiversity sampleLinks40 = "57%" := by
    unfold calculateLinkDiversity
    rw [if_neg (by decide), hcard, hctx, fp64_at_23_40, fp64_at_product]
    have hjr : jsRound ((8092405580431359:ℚ)/140737488355328) = 57 := by
      unfold jsRound
      rw [Int.floor_eq_iff]
      norm_num
    rw [hjr]
    rfl
  have hB : toString (jsRound ((100 * (sampleLinks40.uniqueContextual.card : ℚ)) /
      (sampleLinks40.contextual : ℚ))) ++ "%" = "58%" := by
    rw [hcard, hctx]
    have hjr : jsRound ((100 * (23:ℚ))/40) = 58 := by
      unfold jsRound
      rw [Int.floor_eq_iff]
      norm_num
    rw [hjr]
    rfl
  refine ⟨hA, hB, ?_⟩
  rw [hA, hB]
  decide

theorem C10_witness :
    calculateLinkDiversity ⟨0, 0, 0, 0, ∅⟩ = "N/A" ∧
      ∃ r : Int, calculateLinkDiversity ⟨8, 0, 0, 0, {"a", "b", "c", "d"}⟩
          = toString r ++ "%" ∧
        |r - jsRound ((100 * (((⟨8, 0, 0, 0, {"a", "b", "c", "d"}⟩ : LinkData)).uniqueContextual.card : ℚ)) /
          (((⟨8, 0, 0, 0, {"a", "b", "c", "d"}⟩ : LinkData)).contextual : ℚ))| ≤ 1 :=
  ⟨(C10_amended_diversity_within_one ⟨0, 0, 0, 0, ∅⟩).1 rfl,
    (C10_amended_diversity_within_one ⟨8, 0, 0, 0, {"a", "b", "c", "d"}⟩).2
      (by decide) (by decide)⟩
